import Mathlib

/-!
Verification of the node-dubtrack-api event normalization and dispatch
pipeline against its source (`lib/dubtrack.js`, `lib/dubtrack-socket.js`,
`lib/models/*.js`, `lib/common/roles.js`, `lib/common/utils.js`).

JavaScript objects are shallowly embedded as ordered association lists of
string keys and `Value`s.  Property assignment updates the slot in place
(preserving JS insertion-order semantics), property read yields
`undefined` for an absent key, and `delete` removes the key.  Typed model
instances (User, Room, Song, Role, RoomUser) are `Value` constructors
carrying their enumerable own fields; `RoomUser` additionally records
whether the non-enumerable `_api` facade reference was bound (the JS code
passes `this` as the second constructor argument on some paths and omits
it on others).
-/

set_option autoImplicit false

namespace Dubtrack

/-- A JavaScript runtime value as the dubtrack pipeline manipulates it:
primitives, `Date` objects (we keep the constructor argument of
`new Date(x)` rather than a clock reading), arrays, plain objects, and
the typed model instances built by `lib/models`.  Object fields are the
ordered list of enumerable own properties. -/
inductive Value where
  | vNull
  | vUndefined
  | vBool (b : Bool)
  | vNum (n : Int)
  | vStr (s : String)
  | vDate (src : Value)
  | vArr (elems : List Value)
  | vObj (fields : List (String × Value))
  | vUser (fields : List (String × Value))
  | vRoomUser (fields : List (String × Value)) (hasApi : Bool)
  | vRoom (fields : List (String × Value))
  | vSong (fields : List (String × Value))
  | vRole (fields : List (String × Value))

/-- The ordered enumerable own properties of a JS object. -/
abbrev Fields := List (String × Value)

namespace Fields

/-- Property read: `obj[key]`, `undefined` when the key is absent. -/
def get : Fields → String → Value
  | [], _ => .vUndefined
  | (k, v) :: rest, key => if k = key then v else get rest key

/-- Property write: `obj[key] = val`.  An existing slot is updated in
place (JS keeps the original insertion position); a new key is appended. -/
def set : Fields → String → Value → Fields
  | [], key, val => [(key, val)]
  | (k, v) :: rest, key, val =>
    if k = key then (k, val) :: rest else (k, v) :: set rest key val

/-- Property removal: `delete obj[key]`. -/
def del : Fields → String → Fields
  | [], _ => []
  | (k, v) :: rest, key =>
    if k = key then del rest key else (k, v) :: del rest key

/-- Whether the object has the key as an own property. -/
def hasKey : Fields → String → Bool
  | [], _ => false
  | (k, _) :: rest, key => k == key || hasKey rest key

@[simp] theorem get_nil (key : String) : get [] key = .vUndefined := rfl

@[simp] theorem get_set_self (fs : Fields) (k : String) (v : Value) :
    (fs.set k v).get k = v := by
  induction fs with
  | nil => simp [set, get]
  | cons kv rest ih =>
    by_cases h : kv.1 = k <;> simp [set, get, h, ih]

@[simp] theorem get_set_ne (fs : Fields) (k k' : String) (v : Value) (h : k' ≠ k) :
    (fs.set k v).get k' = fs.get k' := by
  have hk : k ≠ k' := fun hh => h hh.symm
  induction fs with
  | nil => simp [set, get, hk]
  | cons kv rest ih =>
    obtain ⟨k0, v0⟩ := kv
    by_cases h2 : k0 = k
    · subst h2
      simp [set, get, hk]
    · by_cases h3 : k0 = k' <;> simp [set, get, h2, h3, h, ih]

@[simp] theorem get_del_self (fs : Fields) (k : String) :
    (fs.del k).get k = .vUndefined := by
  induction fs with
  | nil => simp [del]
  | cons kv rest ih =>
    by_cases h : kv.1 = k <;> simp [del, get, h, ih]

@[simp] theorem get_del_ne (fs : Fields) (k k' : String) (h : k' ≠ k) :
    (fs.del k).get k' = fs.get k' := by
  have hk : k ≠ k' := fun hh => h hh.symm
  induction fs with
  | nil => simp [del]
  | cons kv rest ih =>
    obtain ⟨k0, v0⟩ := kv
    by_cases h2 : k0 = k
    · subst h2
      simp [del, get, hk, ih]
    · by_cases h3 : k0 = k' <;> simp [del, get, h2, h3, h, ih]

@[simp] theorem hasKey_nil (key : String) : hasKey [] key = false := rfl

end Fields

/-- JS truthiness, as used by `if (x)` and `x || y`. -/
def truthy : Value → Bool
  | .vNull => false
  | .vUndefined => false
  | .vBool b => b
  | .vNum n => n != 0
  | .vStr s => s != ""
  | _ => true

/-- Whether `typeof x == 'object'` holds; note that in JavaScript
`typeof null` is `'object'`, which the RoomUser constructor relies on. -/
def isTypeofObject : Value → Bool
  | .vNull => true
  | .vDate _ => true
  | .vArr _ => true
  | .vObj _ => true
  | .vUser _ => true
  | .vRoomUser _ _ => true
  | .vRoom _ => true
  | .vSong _ => true
  | .vRole _ => true
  | _ => false

/-- The enumerable own fields of a value (empty for primitives, whose
property reads all yield `undefined`). -/
def fieldsOf : Value → Fields
  | .vObj fs => fs
  | .vUser fs => fs
  | .vRoomUser fs _ => fs
  | .vRoom fs => fs
  | .vSong fs => fs
  | .vRole fs => fs
  | _ => []

/-- Faults a JS expression can raise in the modelled code; only
`TypeError` (property access or method call on `null`/`undefined`, or a
missing method) arises here. -/
inductive Fault where
  | typeError

/-- Property access `v[k]` as an expression: throws `TypeError` on
`null`/`undefined`, otherwise reads the own property (yielding
`undefined` for primitives and absent keys). -/
def getProp (v : Value) (k : String) : Except Fault Value :=
  match v with
  | .vNull => .error .typeError
  | .vUndefined => .error .typeError
  | _ => .ok ((fieldsOf v).get k)

/-- String coercion of a value used as a property key, as in
`roles[role]` (`lib/common/roles.js` registers an entry under the literal
key `"null"` via `roles[null] = ...`).  Only primitives reach this in the
modelled code. -/
def jsKey : Value → String
  | .vNull => "null"
  | .vUndefined => "undefined"
  | .vBool b => if b then "true" else "false"
  | .vNum n => toString n
  | .vStr s => s
  | _ => "[object Object]"

/-- Loose equality `x == s` against one of the pipeline's string
constants.  None of the constants is numeric, so every non-string operand
compares unequal. -/
def isStr (v : Value) (s : String) : Bool :=
  match v with
  | .vStr t => t == s
  | _ => false

/-- Whether the second character list starts with the first. -/
def startsWithChars : List Char → List Char → Bool
  | [], _ => true
  | _ :: _, [] => false
  | c :: cs, d :: ds => c == d && startsWithChars cs ds

/-- Whether the character list has `sub` as a contiguous sublist. -/
def containsChars (sub : List Char) : List Char → Bool
  | [] => sub.isEmpty
  | c :: rest => startsWithChars sub (c :: rest) || containsChars sub rest

/-- `String.prototype.includes(sub)` for the non-empty substrings the
pipeline tests (`'user-update'`, `'user_update'`). -/
def strContains (s sub : String) : Bool :=
  containsChars sub.data s.data

/-- `copyWithout(from, to, excluded)` from `lib/common/utils.js`:
`for (current in from) if (!excluded.includes(current)) to[current] = from[current]`. -/
def copyWithout : Fields → Fields → List String → Fields
  | [], tgt, _ => tgt
  | (k, v) :: rest, tgt, excluded =>
    copyWithout rest (if excluded.contains k then tgt else tgt.set k v) excluded

/-- Modelled from the spec: the models' common `Base` class (`./base`,
required by every model but not present under the sources).  Spec section
4.1 and 4.2 describe model construction as explicit typed-field
assignment followed by the field projection (`copyWithout`) only, so
`Base` is taken to contribute no enumerable own fields of its own. -/
def baseFields (_raw : Value) : Fields := []

/-- The `excluded` list of `lib/models/user.js`. -/
def userExcluded : List String :=
  ["_id", "status", "roleid", "dubs", "created", "userInfo", "_force_updated", "__v"]

/-- `new models.User(userObject)` (`lib/models/user.js`):
`this.id = userObject._id; this.created = new Date(userObject.created);
this.lastLogin = null` (reassigned from `_force_updated` when truthy),
then `copyWithout(userObject, this, excluded)`. -/
def mkUser (userObject : Value) : Except Fault Value :=
  match getProp userObject "_id" with
  | .error f => .error f
  | .ok idv =>
  match getProp userObject "created" with
  | .error f => .error f
  | .ok createdv =>
  match getProp userObject "_force_updated" with
  | .error f => .error f
  | .ok forcev =>
    let assigned :=
      ((baseFields userObject).set "id" idv
        |>.set "created" (.vDate createdv)
        |>.set "lastLogin" (if truthy forcev then .vDate forcev else .vNull))
    .ok (.vUser (copyWithout (fieldsOf userObject) assigned userExcluded))

/-- The `excluded` list of `lib/models/room.js`. -/
def roomExcluded : List String :=
  ["_id", "status", "isPublic", "lang", "musicType", "allowedDjs", "created", "updated"]

/-- `new models.Room(roomObject)` (`lib/models/room.js`):
`this.id = roomObject._id; this.user = new User(roomObject._user);
this.created = new Date(roomObject.created);
this.updated = new Date(roomObject.updated)`, then the field projection. -/
def mkRoom (roomObject : Value) : Except Fault Value :=
  match getProp roomObject "_id" with
  | .error f => .error f
  | .ok idv =>
  match getProp roomObject "_user" with
  | .error f => .error f
  | .ok uraw =>
  match mkUser uraw with
  | .error f => .error f
  | .ok u =>
  match getProp roomObject "created" with
  | .error f => .error f
  | .ok createdv =>
  match getProp roomObject "updated" with
  | .error f => .error f
  | .ok updatedv =>
    let assigned :=
      ((baseFields roomObject).set "id" idv
        |>.set "user" u
        |>.set "created" (.vDate createdv)
        |>.set "updated" (.vDate updatedv))
    .ok (.vRoom (copyWithout (fieldsOf roomObject) assigned roomExcluded))

/-- The `excluded` list of `lib/models/song.js`. -/
def songExcluded : List String := ["_id", "images", "created", "__v"]

/-- `new models.Song(songObject)` (`lib/models/song.js`):
`this.id = songObject._id; this.created = new Date(songObject.created);
this.thumbnail = songObject.images.thumbnail`, then the field projection. -/
def mkSong (songObject : Value) : Except Fault Value :=
  match getProp songObject "_id" with
  | .error f => .error f
  | .ok idv =>
  match getProp songObject "created" with
  | .error f => .error f
  | .ok createdv =>
  match getProp songObject "images" with
  | .error f => .error f
  | .ok imagesv =>
  match getProp imagesv "thumbnail" with
  | .error f => .error f
  | .ok thumbv =>
    let assigned :=
      ((baseFields songObject).set "id" idv
        |>.set "created" (.vDate createdv)
        |>.set "thumbnail" thumbv)
    .ok (.vSong (copyWithout (fieldsOf songObject) assigned songExcluded))

/-- One entry of the static role table of `lib/common/roles.js`. -/
structure RoleEntry where
  id : Value
  type : String
  name : String
  rights : List String

/-- The static role table of `lib/common/roles.js`, keyed by the literal
property keys of the JS object: the Mongo role ids, the alias
`"resident-dj"`, and `"null"` (written `roles[null] = ...`, which
registers the key `"null"` after JS key coercion). -/
def rolesTable (key : String) : Option RoleEntry :=
  if key = "5615fa9ae596154a5c000000" then
    some ⟨.vStr "5615fa9ae596154a5c000000", "co-owner", "Co-owner",
      ["update-room", "set-roles", "set-managers", "skip", "queue-order", "kick",
       "ban", "mute", "set-dj", "lock-queue", "delete-chat", "chat-mention"]⟩
  else if key = "5615fd84e596150061000003" then
    some ⟨.vStr "5615fd84e596150061000003", "manager", "Manager",
      ["set-roles", "skip", "queue-order", "kick", "ban", "mute", "set-dj",
       "lock-queue", "delete-chat", "chat-mention"]⟩
  else if key = "52d1ce33c38a06510c000001" then
    some ⟨.vStr "52d1ce33c38a06510c000001", "mod", "Moderator",
      ["skip", "queue-order", "kick", "ban", "mute", "lock-queue", "delete-chat",
       "chat-mention"]⟩
  else if key = "5615fe1ee596154fc2000001" then
    some ⟨.vStr "5615fe1ee596154fc2000001", "vip", "Vip", ["skip"]⟩
  else if key = "resident-dj" ∨ key = "5615feb8e596154fc2000002" then
    some ⟨.vStr "5615feb8e596154fc2000002", "resident-dj", "Resident DJ", []⟩
  else if key = "564435423f6ba174d2000001" then
    some ⟨.vStr "564435423f6ba174d2000001", "dj", "DJ", []⟩
  else if key = "null" then
    some ⟨.vNull, "user", "User", []⟩
  else
    none

/-- The fields `lodash.merge(this, entry)` copies onto a Role instance. -/
def RoleEntry.toFields (e : RoleEntry) : Fields :=
  [("id", e.id), ("type", .vStr e.type), ("name", .vStr e.name),
   ("rights", .vArr (e.rights.map .vStr))]

/-- `new Role(role)` (`lib/models/role.js`): if
`typeof role == 'object' && role != null` then `role = role._id`; then
`merge(this, roles[role])` — a no-op (leaving the instance with no role
fields) when the identifier is not a key of the table.  Note that a JS
`==` comparison with `null` also treats `undefined` as equal, and that
the table lookup coerces the identifier with `jsKey`. -/
def mkRole (role : Value) : Value :=
  let ident :=
    if isTypeofObject role && !(role matches .vNull) then (fieldsOf role).get "_id"
    else role
  match rolesTable (jsKey ident) with
  | some entry => .vRole entry.toFields
  | none => .vRole (baseFields role)

/-- `Role.prototype.is(roleType)`: `this.type == roleType`.  The stored
`type` is a string for table entries and `undefined` otherwise; loose
equality against a string is then plain string equality, false for
`undefined`. -/
def roleIs (r : Value) (roleType : String) : Bool :=
  match (fieldsOf r).get "type" with
  | .vStr s => s == roleType
  | _ => false

/-- `Array.prototype.includes` for an array of strings. -/
def arrIncludesStr : List Value → String → Bool
  | [], _ => false
  | .vStr s :: rest, t => s == t || arrIncludesStr rest t
  | _ :: rest, t => arrIncludesStr rest t

/-- `Role.prototype.hasRight(right)`: `this.rights.includes(right)` —
a `TypeError` when `rights` is absent (no `includes` on `undefined`),
which happens exactly when the constructor's table lookup missed. -/
def roleHasRight (r : Value) (right : String) : Except Fault Bool :=
  match (fieldsOf r).get "rights" with
  | .vArr elems => .ok (arrIncludesStr elems right)
  | _ => .error .typeError

/-- The `excluded` list of the RoomUser model. -/
def roomUserExcluded : List String :=
  ["roomid", "userid", "_user", "roleid", "_id", "skippedCount", "order", "__v",
   "ot_token"]

/-- `new models.RoomUser(userObject, api)` (RoomUser model):
`this.roomId = userObject.roomid; this.userId = userObject.userid;
this.role = new Role(userObject.roleid); this.user = null;
if (typeof userObject._user == 'object') this.user = new User(userObject._user)`,
then the field projection, then the non-enumerable `_api` property is
defined from the second constructor argument.  `hasApi` records whether
the caller passed the facade (`processEvents` passes `this` for
`user-join` events and nothing for `user_update` events). -/
def mkRoomUser (userObject : Value) (hasApi : Bool) : Except Fault Value :=
  match getProp userObject "roomid" with
  | .error f => .error f
  | .ok roomIdv =>
  match getProp userObject "userid" with
  | .error f => .error f
  | .ok userIdv =>
  match getProp userObject "roleid" with
  | .error f => .error f
  | .ok roleIdv =>
  match getProp userObject "_user" with
  | .error f => .error f
  | .ok userRaw =>
  match (if isTypeofObject userRaw then mkUser userRaw else .ok .vNull :
      Except Fault Value) with
  | .error f => .error f
  | .ok userv =>
    let assigned :=
      ((baseFields userObject).set "roomId" roomIdv
        |>.set "userId" userIdv
        |>.set "role" (mkRole roleIdv)
        |>.set "user" userv)
    .ok (.vRoomUser (copyWithout (fieldsOf userObject) assigned roomUserExcluded)
      hasApi)

/-- `RoomUser.prototype.getUser()`:
`if (this.user) return Promise.resolve(this.user); return this._api.getUser(this.userId)`.
`fetch` abstracts the facade's `getUser` network call (by user id,
already wrapped into a typed User).  The result triple is the resolved
value, the instance's fields after the call (the method performs no
assignment, so they are returned as received), and whether the facade
fetch was performed.  When `this._api` is absent (the constructor was
called without the facade) the fetch path dereferences `undefined` and
throws a `TypeError`. -/
def getUserCall (fields : Fields) (hasApi : Bool) (fetch : Value → Value) :
    Except Fault (Value × Fields × Bool) :=
  if truthy (fields.get "user") then .ok (fields.get "user", fields, false)
  else if hasApi then .ok (fetch (fields.get "userId"), fields, true)
  else .error .typeError

/-- The configuration options `processEvents` consults
(`options.raw` bypasses normalization, `options.onlyFirstMatch` stops the
regexp-listener loop after the first match). -/
structure Options where
  raw : Bool
  onlyFirstMatch : Bool

/-- The normalization step of `DubtrackAPI.processEvents` (the body of
`if (!this._options.raw) { ... }` in `lib/dubtrack.js`), acting on the
received event object's fields.  The first statement captures
`event.raw = lodash.cloneDeep(event)` — a structural snapshot of the
fields as received — and the subsequent `else if` chain reshapes the
object in source order.  A non-string `event.type` that fails the first
four equality tests reaches `event.type.includes('user-update')` and
throws a `TypeError`, as in JS.  Note the `user-ban` branch: it first
overwrites `event.user` with `new models.User(event.kickedUser)` and only
then evaluates `new models.User(event.user)` for `event.moderator`, so
the moderator wraps the freshly written User, not the raw moderator
payload — the translation preserves the source's statement order. -/
def transformEvent (e0 : Fields) : Except Fault Fields :=
  let e := e0.set "raw" (.vObj e0)
  let tyv := e.get "type"
  if isStr tyv "chat-message" then
    let e := e.set "chatId" (e.get "chatid")
    match mkUser (e.get "user") with
    | .error f => .error f
    | .ok u =>
      let e := e.set "user" u
      let e := e.set "time" (.vDate (e.get "time"))
      .ok (e.del "chatid")
  else if isStr tyv "room_playlist-dub" || isStr tyv "room_playlist-queue-update-dub"
      || isStr tyv "delete-chat-message" then
    match mkUser (e.get "user") with
    | .error f => .error f
    | .ok u => .ok (e.set "user" u)
  else
    match tyv with
    | .vStr ty =>
      if strContains ty "user-update" then
        match mkUser (e.get "user") with
        | .error f => .error f
        | .ok u => .ok (e.set "user" u)
      else if ty = "user-join" then
        match mkUser (e.get "user") with
        | .error f => .error f
        | .ok u =>
          let e := e.set "user" u
          match mkRoomUser (e.get "roomUser") true with
          | .error f => .error f
          | .ok ru => .ok (e.set "roomUser" ru)
      else if ty = "user-leave" then
        match mkUser (e.get "user") with
        | .error f => .error f
        | .ok u =>
          let e := e.set "user" u
          match mkRoom (e.get "room") with
          | .error f => .error f
          | .ok r => .ok (e.set "room" r)
      else if ty = "room_playlist-queue-update-grabs" || ty = "user-pause-queue" then
        match mkUser (e.get "user") with
        | .error f => .error f
        | .ok u => .ok (e.set "user" u)
      else if ty = "room_playlist-update" then
        match mkSong (e.get "songInfo") with
        | .error f => .error f
        | .ok s =>
          let e := e.set "song" s
          .ok (e.del "songInfo")
      else if ty = "user-ban" then
        match mkUser (e.get "kickedUser") with
        | .error f => .error f
        | .ok u =>
          let e := e.set "user" u
          match mkUser (e.get "user") with
          | .error f => .error f
          | .ok m =>
            let e := e.set "moderator" m
            .ok (e.del "kickedUser")
      else if strContains ty "user_update" then
        match mkRoomUser (e.get "user") false with
        | .error f => .error f
        | .ok ru => .ok (e.set "user" ru)
      else
        .ok e
    | _ => .error .typeError

/-- One registration of `addRegexpListener`: the regexp (abstracted to
its match predicate on the event type string) and the callback
(identified by a number, since only invocation order and identity matter
to the claims). -/
structure PListener where
  pat : String → Bool
  cid : Nat

/-- The regexp-listener loop of `processEvents`: iterate the
registrations in order, invoke each whose regexp matches `event.type`,
and `break` after the first match when `onlyFirstMatch` is set.  Returns
the callbacks invoked, in invocation order. -/
def patternDispatch (onlyFirstMatch : Bool) (ty : String) : List PListener → List Nat
  | [] => []
  | l :: rest =>
    if l.pat ty then
      if onlyFirstMatch then [l.cid]
      else l.cid :: patternDispatch onlyFirstMatch ty rest
    else patternDispatch onlyFirstMatch ty rest

/-- One exact-name listener on the general event bus (the `EventEmitter`
that `DubtrackAPI` extends): the registered event name and the callback. -/
structure ExactReg where
  eventName : String
  cid : Nat

/-- `this.emit(event.type, event)`: the emitter synchronously invokes, in
registration order, every listener registered for exactly that event
name. -/
def emitCalls (ty : String) (regs : List ExactReg) : List Nat :=
  (regs.filter (fun r => r.eventName == ty)).map (fun r => r.cid)

/-- One listener invocation during the dispatch of a single event:
either a regexp (pattern) listener or an exact-name bus listener. -/
inductive Invocation where
  | pattern (cid : Nat)
  | exact (cid : Nat)

/-- The full invocation sequence `processEvents` produces for one event
of type `ty`: the regexp-listener loop runs first, then the unconditional
`this.emit(event.type, event)` fires the exact-name listeners. -/
def dispatchTrace (onlyFirstMatch : Bool) (pls : List PListener)
    (regs : List ExactReg) (ty : String) : List Invocation :=
  (patternDispatch onlyFirstMatch ty pls).map .pattern
    ++ (emitCalls ty regs).map .exact

/-- The string `event.type` is used as for regexp matching and as the
emitted event name (real events carry string types; other values would be
coerced). -/
def eventName : Value → String
  | .vStr s => s
  | v => jsKey v

/-- The observable outcome of one `DubtrackAPI.processEvents` call: the
event object's fields after normalization, the pattern callbacks invoked
in order, the name emitted on the general bus, and the exact-name
callbacks invoked in order. -/
structure Dispatched where
  event : Fields
  patternCalls : List Nat
  emittedType : String
  exactCalls : List Nat

/-- `DubtrackAPI.processEvents(event)`: normalize unless `options.raw`,
then run the regexp-listener loop, then emit under `event.type`.  A
`TypeError` thrown during normalization propagates and nothing is
dispatched. -/
def processEvents (opts : Options) (pls : List PListener) (regs : List ExactReg)
    (e : Fields) : Except Fault Dispatched :=
  match (if opts.raw then .ok e else transformEvent e : Except Fault Fields) with
  | .error f => .error f
  | .ok e2 =>
    let ty := eventName (e2.get "type")
    .ok ⟨e2, patternDispatch opts.onlyFirstMatch ty pls, ty, emitCalls ty regs⟩

/-- The outcome of `processEvents` with object identity made explicit:
the event object lives in a heap of objects addressed by `Nat`, the
normalization mutates that object in place, and the very same reference
is handed to every regexp listener and to `emit`. -/
structure DispatchedRef where
  heap : Nat → Fields
  eventAddr : Nat
  patternCalls : List Nat
  emittedType : String
  exactCalls : List Nat

/-- `DubtrackAPI.processEvents` over an explicit object heap: the
received object at `addr` is normalized in place (its heap cell is
updated; no fresh object is allocated) and `addr` itself is what every
listener invocation and the bus emission receive. -/
def processEventsInPlace (opts : Options) (pls : List PListener)
    (regs : List ExactReg) (heap : Nat → Fields) (addr : Nat) :
    Except Fault DispatchedRef :=
  match (if opts.raw then .ok (heap addr) else transformEvent (heap addr) :
      Except Fault Fields) with
  | .error f => .error f
  | .ok e2 =>
    let heap2 := fun a => if a = addr then e2 else heap a
    let ty := eventName (e2.get "type")
    .ok ⟨heap2, addr, patternDispatch opts.onlyFirstMatch ty pls, ty,
      emitCalls ty regs⟩

/-- The immediate outcome of `DubtrackEvents.join` (`lib/dubtrack-socket.js`):
either the returned promise is already rejected with a `FatalError`
(nothing was contacted, nothing retries), or the method proceeds to
resolve the room through the facade (`this._api.getRoom(roomIdentifier)`)
and subscribe to the room channel on the transport. -/
inductive JoinStep where
  | rejectedFatal (msg : String)
  | resolveRoom (roomIdentifier : Value)

/-- `DubtrackEvents.join(roomIdentifier)`:
`if (!roomIdentifier) return Promise.reject(new FatalError('Room ID or URL-based name can not be empty'));
if (!this.isConnected()) return Promise.reject(new FatalError('Not connected'));
return this._api.getRoom(roomIdentifier).then(...)`. -/
def joinRoom (roomIdentifier : Value) (connected : Bool) : JoinStep :=
  if !truthy roomIdentifier then
    .rejectedFatal "Room ID or URL-based name can not be empty"
  else if !connected then
    .rejectedFatal "Not connected"
  else
    .resolveRoom roomIdentifier

/-- A parsed Dubtrack API response body (`JSON.parse(response.body)`):
its service code and payload. -/
structure JsonResp where
  code : Int
  data : Value

/-- How a `DubtrackAPI._request` promise settles once the body parsed. -/
inductive ReqOutcome where
  | resolved (data : Value)
  | accessDenied
  | dubtrackError (code : Int)

/-- The observable result of the response handling in
`DubtrackAPI._request`: the `_authorized` flag afterwards, the events
emitted on the API object, and how the promise settles. -/
structure ReqResult where
  authorized : Bool
  emitted : List String
  outcome : ReqOutcome

/-- The constructor wiring of `DubtrackAPI`:
`this.on('login', () => this._authorized = true).on('logout', () => this._authorized = false)`.
Emitting is synchronous on an `EventEmitter`, so the flag flips before
`emit` returns. -/
def applyAuthEvent (authorized : Bool) (name : String) : Bool :=
  if name = "login" then true
  else if name = "logout" then false
  else authorized

/-- The response handler of `DubtrackAPI._request`:
`if (json.code == 200) return json.data;
if (json.code == 401) { if (this._authorized) this.emit('logout'); throw new errors.AccessDeniedError(); }
throw new errors.DubtrackError(json)`. -/
def handleParsedResponse (authorized : Bool) (resp : JsonResp) : ReqResult :=
  if resp.code = 200 then ⟨authorized, [], .resolved resp.data⟩
  else if resp.code = 401 then
    let ems := if authorized then ["logout"] else []
    ⟨ems.foldl applyAuthEvent authorized, ems, .accessDenied⟩
  else ⟨authorized, [], .dubtrackError resp.code⟩

/-- A key the source object does not have is never written by the field
projection, so the target's slot for it is untouched. -/
theorem copyWithout_get_of_hasKey_false (src : Fields) (tgt : Fields)
    (ex : List String) (k : String) (hk : src.hasKey k = false) :
    (copyWithout src tgt ex).get k = tgt.get k := by
  induction src generalizing tgt with
  | nil => simp [copyWithout]
  | cons kv rest ih =>
    obtain ⟨k0, v0⟩ := kv
    simp only [Fields.hasKey, Bool.or_eq_false_iff, beq_eq_false_iff_ne, ne_eq] at hk
    obtain ⟨hk1, hk2⟩ := hk
    by_cases hex : k0 ∈ ex
    · simpa [copyWithout, hex] using ih tgt hk2
    · have := ih (tgt.set k0 v0) hk2
      simpa [copyWithout, hex,
        Fields.get_set_ne (tgt) k0 k v0 (fun hh => hk1 hh.symm)] using this

/-- A successful `new models.User(...)` always yields a User instance. -/
theorem mkUser_ok_shape (x u : Value) (h : mkUser x = .ok u) :
    ∃ uf, u = .vUser uf := by
  unfold mkUser at h
  repeat' split at h
  all_goals first
    | exact Except.noConfusion h
    | (injection h with h; exact ⟨_, h.symm⟩)

/-- The normalization never reassigns `raw` after capturing it, and never
touches `type`: on success the result's `raw` is the snapshot of the
fields as received and its `type` is the received `type`. -/
theorem transformEvent_raw_type (e out : Fields)
    (h : transformEvent e = .ok out) :
    out.get "raw" = .vObj e ∧ out.get "type" = e.get "type" := by
  simp only [transformEvent] at h
  repeat' split at h
  all_goals first
    | exact Except.noConfusion h
    | (injection h with h; subst h; constructor <;> simp)

/-- The `chat-message` branch of the normalization: `chatid` is deleted,
`chatId` carries its value, `user` is a typed User, and `time` became a
date built from the received `time`. -/
theorem transformEvent_chat (e out : Fields)
    (hty : e.get "type" = .vStr "chat-message")
    (h : transformEvent e = .ok out) :
    out.get "chatid" = .vUndefined ∧
    out.get "chatId" = e.get "chatid" ∧
    (∃ uf, out.get "user" = .vUser uf) ∧
    out.get "time" = .vDate (e.get "time") := by
  simp only [transformEvent] at h
  rw [show (e.set "raw" (.vObj e)).get "type" = .vStr "chat-message" by
    simp [hty]] at h
  simp only [isStr, beq_self_eq_true, if_true] at h
  split at h
  · exact Except.noConfusion h
  · rename_i u hu
    injection h with h
    subst h
    refine ⟨by simp, by simp, ?_, by simp⟩
    obtain ⟨uf, huf⟩ := mkUser_ok_shape _ _ hu
    subst huf
    exact ⟨uf, by simp⟩

/-- The callbacks of the exact-name invocations of a trace, in order. -/
def exactCids : List Invocation → List Nat
  | [] => []
  | .exact c :: rest => c :: exactCids rest
  | .pattern _ :: rest => exactCids rest

/-- Whether every exact-name invocation of the trace happens before
every pattern invocation. -/
def exactAllFirst : List Invocation → Bool
  | [] => true
  | .exact _ :: rest => exactAllFirst rest
  | .pattern _ :: rest =>
    rest.all fun i => match i with | .pattern _ => true | .exact _ => false

theorem exactCids_append_map (ps es : List Nat) :
    exactCids (ps.map .pattern ++ es.map .exact) = es := by
  induction ps with
  | nil =>
    induction es with
    | nil => rfl
    | cons c rest ih => simpa [exactCids] using ih
  | cons p rest ih => simpa [exactCids] using ih

/-- When the short-circuit flag is set and some listener matches, the
pattern loop invokes exactly the first matching registration. -/
theorem patternDispatch_first_match (ty : String) (pls₁ pls₂ : List PListener)
    (l : PListener) (hl : l.pat ty = true)
    (hpre : ∀ p ∈ pls₁, p.pat ty = false) :
    patternDispatch true ty (pls₁ ++ l :: pls₂) = [l.cid] := by
  induction pls₁ with
  | nil => simp [patternDispatch, hl]
  | cons q rest ih =>
    have hq : q.pat ty = false := hpre q (by simp)
    have := ih (fun p hp => hpre p (by simp [hp]))
    simpa [patternDispatch, hq] using this

/-! ## Claim theorems -/

/-- A `user-ban` raw event in which the raw `user` sub-object (the
moderator, per the event's wire semantics) and the raw `kickedUser`
sub-object carry distinct ids. -/
def banEventInput : Fields :=
  [("type", .vStr "user-ban"),
   ("user", .vObj [("_id", .vStr "moderator-1")]),
   ("kickedUser", .vObj [("_id", .vStr "banned-2")])]

/-- C1: the claim states that for a `user-ban` event the normalized
`moderator` field is the typed User built from the original raw `user`
(here with id `"moderator-1"`).  Evaluating the source's statement order
at `banEventInput` shows otherwise: `event.user` is overwritten with
`new User(event.kickedUser)` first, and `event.moderator = new
User(event.user)` then wraps that freshly built User, so the moderator's
`id` is `"banned-2"` — the banned user's id, double-wrapped (note the
twice-applied date conversion) — and the raw moderator identity
`"moderator-1"` survives only inside `raw`. -/
theorem user_ban_moderator_built_from_overwritten_user :
    ∃ out, transformEvent banEventInput = .ok out ∧
      out.get "user" = .vUser [("id", .vStr "banned-2"),
        ("created", .vDate .vUndefined), ("lastLogin", .vNull)] ∧
      out.get "moderator" = .vUser [("id", .vStr "banned-2"),
        ("created", .vDate (.vDate .vUndefined)), ("lastLogin", .vNull)] ∧
      (fieldsOf (out.get "moderator")).get "id" ≠ .vStr "moderator-1" ∧
      out.get "kickedUser" = .vUndefined := by
  refine ⟨_, rfl, rfl, rfl, ?_, rfl⟩
  intro hcontra
  have h2 : Value.vStr "banned-2" = Value.vStr "moderator-1" := hcontra
  injection h2 with h3
  exact absurd h3 (by decide)

/-- C2: with the `raw` option disabled, the `raw` field of the dispatched
normalized event is the structural snapshot of the event exactly as
received; no later transformation of the promoted fields changes it (in
this embedding the snapshot is a value, and the theorem shows the final
object still carries the untouched snapshot after the whole pipeline). -/
theorem raw_snapshot_preserved (opts : Options) (pls : List PListener)
    (regs : List ExactReg) (e : Fields) (d : Dispatched)
    (hraw : opts.raw = false)
    (h : processEvents opts pls regs e = .ok d) :
    d.event.get "raw" = .vObj e := by
  simp only [processEvents, hraw, if_false, Bool.false_eq_true] at h
  split at h
  · exact Except.noConfusion h
  · rename_i e2 he2
    injection h with h
    subst h
    exact (transformEvent_raw_type e e2 he2).1

/-- C2 witness. -/
theorem raw_snapshot_preserved_witness :
    ∃ d, processEvents ⟨false, false⟩ [] [] [("type", Value.vStr "ping")]
        = .ok d ∧
      d.event.get "raw" = .vObj [("type", Value.vStr "ping")] :=
  ⟨_, rfl, raw_snapshot_preserved ⟨false, false⟩ [] []
    [("type", Value.vStr "ping")] _ rfl rfl⟩

/-- A pattern listener matching every event type. -/
def matchAllListener : PListener := ⟨fun _ => true, 100⟩

/-- An exact-name listener for `chat-message`. -/
def chatExactReg : ExactReg := ⟨"chat-message", 200⟩

/-- C3 counterexample: the claim states exact-name listeners are invoked
first, before pattern dispatch.  With one matching pattern listener and
one exact-name listener for the same event, the dispatch trace runs the
pattern callback first and the exact-name callback only afterwards (the
unconditional `this.emit(event.type, event)` is the last statement of
`processEvents`), so the exact-first ordering is false even with the
short-circuit flag set. -/
theorem exact_listener_runs_after_pattern_listener :
    dispatchTrace true [matchAllListener] [chatExactReg] "chat-message"
        = [.pattern 100, .exact 200] ∧
    exactAllFirst
      (dispatchTrace true [matchAllListener] [chatExactReg] "chat-message")
        = false :=
  ⟨rfl, rfl⟩

/-- C3 amended: every exact-name listener registered for the event's
type is always invoked — the same exact-name invocations whatever the
short-circuit flag and whatever pattern listeners exist (the flag only
shortens the pattern phase) — but they run after the pattern phase, not
before: the trace is the pattern invocations followed by the exact-name
invocations. -/
theorem exact_dispatch_unaffected_by_flag (flag : Bool) (pls : List PListener)
    (regs : List ExactReg) (ty : String) :
    exactCids (dispatchTrace flag pls regs ty) = emitCalls ty regs ∧
    dispatchTrace flag pls regs ty =
      (patternDispatch flag ty pls).map .pattern
        ++ (emitCalls ty regs).map .exact :=
  ⟨exactCids_append_map _ _, rfl⟩

/-- C4: with `onlyFirstMatch` enabled and (at least) two registered
pattern listeners matching the event's type, exactly the first-registered
matching listener's callback runs in the pattern phase, and the event is
nevertheless still emitted on the general bus under its literal type
string, firing its exact-name listeners. -/
theorem only_first_matching_pattern_listener_runs
    (pls₁ pls₂ pls₃ : List PListener) (l₁ l₂ : PListener)
    (regs : List ExactReg) (e : Fields) (d : Dispatched)
    (h : processEvents ⟨false, true⟩ (pls₁ ++ (l₁ :: (pls₂ ++ (l₂ :: pls₃))))
      regs e = .ok d)
    (h₁ : l₁.pat d.emittedType = true) (h₂ : l₂.pat d.emittedType = true)
    (hpre : ∀ l ∈ pls₁, l.pat d.emittedType = false) :
    d.patternCalls = [l₁.cid] ∧
    d.emittedType = eventName (e.get "type") ∧
    d.exactCalls = emitCalls d.emittedType regs := by
  simp only [processEvents] at h
  split at h
  · exact Except.noConfusion h
  · rename_i e2 he2
    injection h with h
    subst h
    have hty : e2.get "type" = e.get "type" := by
      simp only [if_false, Bool.false_eq_true] at he2
      exact (transformEvent_raw_type e e2 (by simpa using he2)).2
    refine ⟨?_, by simp [hty], rfl⟩
    dsimp only at h₁ hpre ⊢
    exact patternDispatch_first_match _ pls₁ (pls₂ ++ (l₂ :: pls₃)) l₁ h₁ hpre

/-- C4 witness. -/
theorem only_first_matching_witness :
    ∃ d, processEvents ⟨false, true⟩
        [⟨fun _ => true, 1⟩, ⟨fun _ => true, 2⟩] [⟨"t", 9⟩]
        [("type", Value.vStr "t")] = .ok d ∧
      d.patternCalls = [1] ∧ d.exactCalls = [9] := by
  refine ⟨_, rfl, ?_, rfl⟩
  exact (only_first_matching_pattern_listener_runs [] [] []
    ⟨fun _ => true, 1⟩ ⟨fun _ => true, 2⟩ [⟨"t", 9⟩]
    [("type", Value.vStr "t")] _ rfl rfl rfl (by simp)).1

/-- A room-user payload whose embedded `_user` field is absent. -/
def lazyPayload : Fields := [("roomid", .vStr "r1"), ("userid", .vStr "u77")]

/-- The fields of the RoomMembership built from `lazyPayload`. -/
def lazyFields : Fields :=
  [("roomId", .vStr "r1"), ("userId", .vStr "u77"), ("role", .vRole []),
   ("user", .vNull)]

/-- A facade fetch oracle for the lazy-resolution claims. -/
def lazyFetch : Value → Value := fun v => .vUser [("id", v)]

/-- C5 counterexample: the claim states the first successful lazy fetch
is cached so subsequent calls resolve without fetching.  The membership
built from a payload with no embedded user stores `user = null`; its
`getUser()` fetches and returns the instance's fields unchanged (the
source never assigns the result to `this.user`), so the subsequent call —
made on the very same unchanged fields — performs a fetch again: no
execution of `getUser()` on this membership ever resolves without a
fetch. -/
theorem lazy_resolution_not_cached :
    mkRoomUser (.vObj lazyPayload) true = .ok (.vRoomUser lazyFields true) ∧
    lazyFields.get "user" = .vNull ∧
    getUserCall lazyFields true lazyFetch
      = .ok (.vUser [("id", .vStr "u77")], lazyFields, true) ∧
    ¬ ∃ v, getUserCall lazyFields true lazyFetch = .ok (v, lazyFields, false) := by
  refine ⟨rfl, rfl, rfl, ?_⟩
  rintro ⟨v, hv⟩
  have h2 : (Except.ok (ε := Fault) (.vUser [("id", .vStr "u77")], lazyFields, true))
      = .ok (v, lazyFields, false) := hv
  simp at h2

/-- C5 amended: a RoomMembership built from a payload whose embedded
`_user` is not an object (and which carries no stray raw `user` key)
stores `user = null`, and its lazy resolver fetches the user by `userId`
through the facade on every call, leaving the instance unchanged — the
result is never cached, so each subsequent call fetches again. -/
theorem lazy_resolver_fetches_every_call (p flds : Fields)
    (fetch : Value → Value)
    (hu : isTypeofObject (p.get "_user") = false)
    (hk : p.hasKey "user" = false)
    (h : mkRoomUser (.vObj p) true = .ok (.vRoomUser flds true)) :
    flds.get "user" = .vNull ∧
    getUserCall flds true fetch = .ok (fetch (flds.get "userId"), flds, true) := by
  simp only [mkRoomUser, getProp, fieldsOf, hu, Bool.false_eq_true, if_false] at h
  injection h with h
  injection h with h
  have huser : flds.get "user" = .vNull := by
    rw [← h]
    rw [copyWithout_get_of_hasKey_false _ _ _ _ hk]
    simp
  refine ⟨huser, ?_⟩
  simp [getUserCall, huser, truthy]

/-- C5 amended witness. -/
theorem lazy_resolver_witness :
    isTypeofObject (lazyPayload.get "_user") = false ∧
    getUserCall lazyFields true lazyFetch
      = .ok (lazyFetch (lazyFields.get "userId"), lazyFields, true) :=
  ⟨rfl, (lazy_resolver_fetches_every_call lazyPayload lazyFields lazyFetch
    rfl rfl rfl).2⟩

/-- The fields `lodash.merge` copies for the default `"user"` table
entry. -/
def defaultUserRoleFields : Fields :=
  [("id", .vNull), ("type", .vStr "user"), ("name", .vStr "User"),
   ("rights", .vArr [])]

/-- C6 counterexample: the claim states an unrecognized identifier falls
back to the default `"user"` entry, making `hasRight` total and false.
In the source only `null` (via the `roles[null]` table key) gets the
default entry: an unrecognized string misses the table, `merge(this,
undefined)` is a no-op, the resulting Role has no fields at all — not the
default entry — and `hasRight` throws a `TypeError` on
`undefined.includes` instead of returning false. -/
theorem unrecognized_role_is_not_defaulted :
    mkRole (.vStr "definitely-not-a-role") = .vRole [] ∧
    mkRole (.vStr "definitely-not-a-role") ≠ .vRole defaultUserRoleFields ∧
    mkRole .vNull = .vRole defaultUserRoleFields ∧
    roleHasRight (mkRole (.vStr "definitely-not-a-role")) "kick"
      = .error .typeError := by
  refine ⟨rfl, ?_, rfl, rfl⟩
  intro hcontra
  have h2 : (Value.vRole []) = .vRole defaultUserRoleFields := hcontra
  injection h2 with h3
  exact absurd h3 (by simp [defaultUserRoleFields])

/-- C6 amended: `null` resolves to the fixed default `"user"` entry with
no rights (so `hasRight` is false for every right on it); a recognized
identifier — given as a bare string key or as a role sub-object whose
`_id` carries that key — resolves to its fixed table entry; but an
unrecognized identifier yields a Role with no fields, on which `is` is
total and false for every type while `hasRight` faults for every
right. -/
theorem role_null_defaults_unrecognized_faults :
    mkRole .vNull = .vRole defaultUserRoleFields ∧
    (∀ right, roleHasRight (mkRole .vNull) right = .ok false) ∧
    (∀ s entry, rolesTable s = some entry →
      mkRole (.vStr s) = .vRole entry.toFields ∧
      ∀ p : Fields, p.get "_id" = .vStr s →
        mkRole (.vObj p) = .vRole entry.toFields) ∧
    ∀ s, rolesTable s = none →
      mkRole (.vStr s) = .vRole [] ∧
      (∀ t, roleIs (mkRole (.vStr s)) t = false) ∧
      (∀ right, roleHasRight (mkRole (.vStr s)) right = .error .typeError) := by
  refine ⟨rfl, fun right => rfl, fun s entry hs => ?_, fun s hs => ?_⟩
  · constructor
    · simp [mkRole, isTypeofObject, jsKey, hs]
    · intro p hp
      simp [mkRole, isTypeofObject, fieldsOf, jsKey, hp, hs]
  · have hrole : mkRole (.vStr s) = .vRole [] := by
      simp [mkRole, isTypeofObject, jsKey, hs, baseFields]
    exact ⟨hrole, fun t => by rw [hrole]; rfl, fun right => by rw [hrole]; rfl⟩

/-- C6 amended witness: an unrecognized identifier (fault path), and the
recognized moderator-role key resolved both from its bare string and from
a role sub-object carrying it as `_id`. -/
theorem role_unrecognized_witness :
    rolesTable "definitely-not-a-role-2" = none ∧
    roleIs (mkRole (.vStr "definitely-not-a-role-2")) "user" = false ∧
    roleHasRight (mkRole (.vStr "definitely-not-a-role-2")) "ban"
      = .error .typeError ∧
    ∃ entry, rolesTable "52d1ce33c38a06510c000001" = some entry ∧
      mkRole (.vStr "52d1ce33c38a06510c000001") = .vRole entry.toFields ∧
      mkRole (.vObj [("_id", .vStr "52d1ce33c38a06510c000001")])
        = .vRole entry.toFields := by
  refine ⟨rfl, ?_, ?_, ?_⟩
  · exact ((role_null_defaults_unrecognized_faults).2.2.2
      "definitely-not-a-role-2" rfl).2.1 "user"
  · exact ((role_null_defaults_unrecognized_faults).2.2.2
      "definitely-not-a-role-2" rfl).2.2 "ban"
  · refine ⟨_, rfl, ?_, ?_⟩
    · exact ((role_null_defaults_unrecognized_faults).2.2.1
        "52d1ce33c38a06510c000001" _ rfl).1
    · exact ((role_null_defaults_unrecognized_faults).2.2.1
        "52d1ce33c38a06510c000001" _ rfl).2
        [("_id", .vStr "52d1ce33c38a06510c000001")] rfl

/-- C7: a `join` with a falsy (empty or missing) room identifier, or
while the transport is not connected, immediately returns an
already-rejected promise with a `FatalError` — a single rejection with no
retry — and never reaches the step that resolves the room through the
facade and contacts the transport. -/
theorem join_precondition_fails_fast (roomIdentifier : Value)
    (connected : Bool)
    (h : truthy roomIdentifier = false ∨ connected = false) :
    (∃ msg, joinRoom roomIdentifier connected = .rejectedFatal msg) ∧
    ∀ rid, joinRoom roomIdentifier connected ≠ .resolveRoom rid := by
  have hrej : ∃ msg, joinRoom roomIdentifier connected = .rejectedFatal msg := by
    rcases h with h | h
    · exact ⟨"Room ID or URL-based name can not be empty", by simp [joinRoom, h]⟩
    · by_cases ht : truthy roomIdentifier = false
      · exact ⟨"Room ID or URL-based name can not be empty",
          by simp [joinRoom, ht]⟩
      · have ht2 : truthy roomIdentifier = true := by
          revert ht
          cases truthy roomIdentifier <;> simp
        exact ⟨"Not connected", by simp [joinRoom, ht2, h]⟩
  obtain ⟨msg, hm⟩ := hrej
  refine ⟨⟨msg, hm⟩, fun rid hcontra => ?_⟩
  rw [hm] at hcontra
  exact JoinStep.noConfusion hcontra

/-- C7 witness. -/
theorem join_empty_identifier_witness :
    truthy (Value.vStr "") = false ∧
    ∃ msg, joinRoom (Value.vStr "") true = .rejectedFatal msg :=
  ⟨rfl, (join_precondition_fails_fast (Value.vStr "") true (Or.inl rfl)).1⟩

/-- C8: a response whose service code is the unauthorized code 401,
handled while the client is logged in, flips the authorization state to
logged out (the `logout` event is emitted and the constructor wiring sets
`_authorized = false` before `emit` returns), and the operation rejects
with the access-denied failure instead of resolving with the payload. -/
theorem unauthorized_response_forces_logout (authorized : Bool)
    (resp : JsonResp)
    (hauth : authorized = true) (hcode : resp.code = 401) :
    (handleParsedResponse authorized resp).authorized = false ∧
    (handleParsedResponse authorized resp).emitted = ["logout"] ∧
    (handleParsedResponse authorized resp).outcome = .accessDenied := by
  subst hauth
  simp [handleParsedResponse, hcode, applyAuthEvent]

/-- C8 witness. -/
theorem unauthorized_response_witness :
    (handleParsedResponse true ⟨401, .vNull⟩).authorized = false ∧
    (handleParsedResponse true ⟨401, .vNull⟩).outcome = .accessDenied :=
  ⟨(unauthorized_response_forces_logout true ⟨401, .vNull⟩ rfl rfl).1,
   (unauthorized_response_forces_logout true ⟨401, .vNull⟩ rfl rfl).2.2⟩

/-- C9: `processEvents` normalizes the received event object in place:
the dispatched reference is the very address that was passed in, the heap
cell at that address now holds the transformed fields (with the added
`raw` snapshot), and — for a `chat-message` input — that same object has
`chatid` removed and `chatId`, a typed `user` and a date-valued `time`
present.  Every listener invocation receives `d.eventAddr`, i.e. the
input object itself. -/
theorem normalization_mutates_event_in_place (opts : Options)
    (pls : List PListener) (regs : List ExactReg) (heap : Nat → Fields)
    (addr : Nat) (d : DispatchedRef)
    (hraw : opts.raw = false)
    (h : processEventsInPlace opts pls regs heap addr = .ok d) :
    d.eventAddr = addr ∧
    transformEvent (heap addr) = .ok (d.heap addr) ∧
    (d.heap addr).get "raw" = .vObj (heap addr) ∧
    ((heap addr).get "type" = .vStr "chat-message" →
      (d.heap addr).get "chatid" = .vUndefined ∧
      (d.heap addr).get "chatId" = (heap addr).get "chatid" ∧
      (∃ uf, (d.heap addr).get "user" = .vUser uf) ∧
      (d.heap addr).get "time" = .vDate ((heap addr).get "time")) := by
  simp only [processEventsInPlace, hraw, if_false, Bool.false_eq_true] at h
  split at h
  · exact Except.noConfusion h
  · rename_i e2 he2
    injection h with h
    subst h
    have htr : transformEvent (heap addr) = .ok e2 := by simpa using he2
    refine ⟨rfl, by simpa using htr, ?_, ?_⟩
    · have := (transformEvent_raw_type _ _ htr).1
      simpa using this
    · intro hty
      have hc := transformEvent_chat _ _ hty htr
      simpa using hc

/-- C9 witness event. -/
def chatHeapEvent : Fields :=
  [("type", .vStr "chat-message"), ("chatid", .vStr "c1"),
   ("user", .vObj [("_id", .vStr "u1")]), ("time", .vNum 99)]

/-- C9 witness. -/
theorem in_place_mutation_witness :
    ∃ d, processEventsInPlace ⟨false, false⟩ [] [] (fun _ => chatHeapEvent) 0
        = .ok d ∧
      d.eventAddr = 0 ∧ (d.heap 0).get "chatId" = .vStr "c1" := by
  refine ⟨_, rfl, ?_, ?_⟩
  · exact (normalization_mutates_event_in_place ⟨false, false⟩ [] []
      (fun _ => chatHeapEvent) 0 _ rfl rfl).1
  · have hc := (normalization_mutates_event_in_place ⟨false, false⟩ [] []
      (fun _ => chatHeapEvent) 0 _ rfl rfl).2.2.2 rfl
    exact hc.2.1.trans rfl

/-- A RoomMembership built from an object payload with no embedded
`_user` object (and no stray raw `user` key) stores `user = null`. -/
theorem mkRoomUser_user_null (p flds : Fields) (hasApi : Bool)
    (hu : isTypeofObject (p.get "_user") = false)
    (hk : p.hasKey "user" = false)
    (h : mkRoomUser (.vObj p) hasApi = .ok (.vRoomUser flds hasApi)) :
    flds.get "user" = .vNull := by
  simp only [mkRoomUser, getProp, fieldsOf, hu, Bool.false_eq_true, if_false] at h
  injection h with h
  injection h with h
  rw [← h]
  rw [copyWithout_get_of_hasKey_false _ _ _ _ hk]
  simp

/-- C10: an event whose string type contains `'user_update'` (and not
`'user-update'`, which an earlier rule of the chain would capture) gets
its `user` payload wrapped as `new models.RoomUser(event.user)` — without
the facade argument that the `user-join` rule passes — so when that
payload embeds no user object the membership stores `user = null` and its
`getUser()` faults with a `TypeError` on the absent facade instead of
returning a User. -/
theorem user_update_membership_lacks_facade (e out : Fields) (ty : String)
    (p : Fields)
    (hty : e.get "type" = .vStr ty)
    (hc : strContains ty "user_update" = true)
    (hn : strContains ty "user-update" = false)
    (hp : e.get "user" = .vObj p)
    (hpu : isTypeofObject (p.get "_user") = false)
    (hpk : p.hasKey "user" = false)
    (h : transformEvent e = .ok out) :
    ∃ ruf : Fields, out.get "user" = .vRoomUser ruf false ∧
      ruf.get "user" = .vNull ∧
      ∀ fetch, getUserCall ruf false fetch = .error .typeError := by
  have hne1 : ty ≠ "chat-message" := by
    rintro rfl; exact absurd hc (by decide)
  have hne2 : ty ≠ "room_playlist-dub" := by
    rintro rfl; exact absurd hc (by decide)
  have hne3 : ty ≠ "room_playlist-queue-update-dub" := by
    rintro rfl; exact absurd hc (by decide)
  have hne4 : ty ≠ "delete-chat-message" := by
    rintro rfl; exact absurd hc (by decide)
  have hne5 : ty ≠ "user-join" := by
    rintro rfl; exact absurd hc (by decide)
  have hne6 : ty ≠ "user-leave" := by
    rintro rfl; exact absurd hc (by decide)
  have hne7 : ty ≠ "room_playlist-queue-update-grabs" := by
    rintro rfl; exact absurd hc (by decide)
  have hne8 : ty ≠ "user-pause-queue" := by
    rintro rfl; exact absurd hc (by decide)
  have hne9 : ty ≠ "room_playlist-update" := by
    rintro rfl; exact absurd hc (by decide)
  have hne10 : ty ≠ "user-ban" := by
    rintro rfl; exact absurd hc (by decide)
  simp only [transformEvent] at h
  rw [show (e.set "raw" (.vObj e)).get "type" = .vStr ty by simp [hty]] at h
  rw [show (e.set "raw" (.vObj e)).get "user" = .vObj p by simp [hp]] at h
  simp only [isStr, Bool.or_eq_true, beq_iff_eq, hne1, hne2, hne3, hne4, hne5,
    hne6, hne7, hne8, hne9, hne10, hn, hc, if_false, if_true, or_self,
    or_false, false_or, decide_eq_true_eq, Bool.false_eq_true] at h
  simp only [mkRoomUser, getProp, fieldsOf, hpu, Bool.false_eq_true,
    if_false] at h
  injection h with h
  subst h
  set X := copyWithout p
    (((((baseFields (Value.vObj p)).set "roomId" (p.get "roomid")).set
      "userId" (p.get "userid")).set "role" (mkRole (p.get "roleid"))).set
      "user" Value.vNull) roomUserExcluded with hX
  have hun : X.get "user" = Value.vNull := by
    rw [hX, copyWithout_get_of_hasKey_false _ _ _ _ hpk]
    simp
  exact ⟨X, by simp, hun, fun fetch => by simp [getUserCall, hun, truthy]⟩

/-- C10 witness event. -/
def userUpdateEvent : Fields :=
  [("type", .vStr "user_update"), ("user", .vObj [("userid", .vStr "u1")])]

/-- C10 witness. -/
theorem user_update_witness :
    ∃ out : Fields, ∃ ruf : Fields, transformEvent userUpdateEvent = .ok out ∧
      out.get "user" = .vRoomUser ruf false ∧ ruf.get "user" = .vNull ∧
      getUserCall ruf false lazyFetch = .error .typeError := by
  obtain ⟨ruf, h1, h2, h3⟩ := user_update_membership_lacks_facade
    userUpdateEvent _ "user_update" [("userid", .vStr "u1")]
    rfl (by decide) (by decide) rfl rfl rfl rfl
  exact ⟨_, ruf, rfl, h1, h2, h3 lazyFetch⟩

end Dubtrack
